import Mathlib

/-!
Shallow embedding of the `three` Open311 client wrapper
(`src/three/three.py`) and verification of its specification.

Python dictionaries of string keys and values are modelled as association
lists (`Dict`), with first-match lookup and in-place-overwrite insertion,
which matches the observable behaviour of `dict.__getitem__`,
`dict.__setitem__` and `dict.update` for the maps this client builds.
The process environment variable `OPEN311_API_KEY` is modelled as an
`Option String` (`none` = unset, `some v` = set to `v`, possibly empty).
Outbound HTTP traffic is modelled by the `HttpCall` datatype: each client
method returns the single call it would issue through the `requests`
library.
-/

set_option autoImplicit false

namespace ThreeSpec

/-- Association-list model of a Python `dict` with string keys and values. -/
abbrev Dict := List (String × String)

/-- First-match lookup, `d.get(k)` / `k in d`. -/
def dget (d : Dict) (k : String) : Option String :=
  match d with
  | [] => none
  | (k', v) :: rest => if k' = k then some v else dget rest k

/-- Lookup in a `defaultdict(str)`: a missing key reads as `""`. -/
def dgetD (d : Dict) (k : String) : String :=
  (dget d k).getD ""

/-- `d[k] = v`: overwrite the first binding of `k`, or append a new one. -/
def dinsert (d : Dict) (k v : String) : Dict :=
  match d with
  | [] => [(k, v)]
  | (k', v') :: rest => if k' = k then (k, v) :: rest else (k', v') :: dinsert rest k v

/-- `d.update(e)`: set every binding of `e` in `d`, left to right. -/
def dupdate (d e : Dict) : Dict :=
  e.foldl (fun acc kv => dinsert acc kv.1 kv.2) d

/-- Boolean list-prefix test, the character-level core of Python's
`str.startswith` and `str.endswith`. -/
def listIsPre : List Char → List Char → Bool
  | [], _ => true
  | _ :: _, [] => false
  | a :: as, b :: bs => a = b && listIsPre as bs

/-- Python `s.startswith(p)`. -/
def strStartsWith (s p : String) : Bool :=
  listIsPre p.data s.data

/-- Python `s.endswith(p)`. -/
def strEndsWith (s p : String) : Bool :=
  listIsPre p.data.reverse s.data.reverse

/-- An outbound HTTP call issued through the `requests` library.
`get url none` is `requests.get(url)` (no `params` argument at all),
`get url (some p)` is `requests.get(url, params=p)`, and
`post url d` is `requests.post(url, data=d)`. -/
inductive HttpCall where
  | get (url : String) (params : Option Dict)
  | post (url : String) (data : Dict)
  deriving DecidableEq

/-- The state of a `Three` instance: the construction-time keyword map
`keywords` (`self._keywords`) plus the five live fields that `configure`
assigns. -/
structure Three where
  keywords : Dict
  api_key : String
  endpoint : String
  format : String
  jurisdiction : String
  proxy : String
  deriving DecidableEq

/-- `Three._global_api_key`: the environment value of `OPEN311_API_KEY`
when the variable is present, else `""`. -/
def globalApiKey (env : Option String) : String :=
  match env with
  | some v => v
  | none => ""

/-- `Three._configure_endpoint`: prepend `https://` when the endpoint does
not start with `"http"`, then append `/` when it does not end with `/`. -/
def Three.configure_endpoint (endpoint : String) : String :=
  let e := if strStartsWith endpoint "http" then endpoint else "https://" ++ endpoint
  if strEndsWith e "/" then e else e ++ "/"

/-- `Three.configure(**kwargs)`: merge `kwargs` onto a copy of
`self._keywords` (normalizing an `endpoint` override), then assign the five
live fields from the merged map.  `self._keywords` itself is left as is. -/
def Three.configure (env : Option String) (t : Three) (kwargs : Dict) : Three :=
  let keywords := dupdate t.keywords kwargs
  let keywords :=
    match dget kwargs "endpoint" with
    | some e => dinsert keywords "endpoint" (Three.configure_endpoint e)
    | none => keywords
  { keywords := t.keywords
    api_key := if dgetD keywords "api_key" = "" then globalApiKey env else dgetD keywords "api_key"
    endpoint := dgetD keywords "endpoint"
    format := if dgetD keywords "format" = "" then "json" else dgetD keywords "format"
    jurisdiction := dgetD keywords "jurisdiction"
    proxy := dgetD keywords "proxy" }

/-- `Three.__init__(endpoint=None, **kwargs)`: store the keywords (with a
normalized endpoint injected when the `endpoint` argument is truthy, i.e.
a non-empty string), then `self.configure()`.  The empty string stands for
an omitted / `None` endpoint argument, which `if endpoint:` treats the
same way. -/
def Three.init (env : Option String) (endpoint : String) (kwargs : Dict) : Three :=
  let keywords :=
    if endpoint = "" then kwargs
    else dinsert kwargs "endpoint" (Three.configure_endpoint endpoint)
  Three.configure env
    { keywords := keywords, api_key := "", endpoint := "", format := ""
      jurisdiction := "", proxy := "" } []

/-- `Three.reset()`: `self.configure()` with no overrides. -/
def Three.reset (env : Option String) (t : Three) : Three :=
  Three.configure env t []

/-- `ifilter(None, args)`: drop the falsy segments (`None` and `""`). -/
def pyFilterTruthy : List (Option String) → List String
  | [] => []
  | none :: rest => pyFilterTruthy rest
  | some s :: rest => if s = "" then pyFilterTruthy rest else s :: pyFilterTruthy rest

/-- `Three._create_path(*args)`:
`self.endpoint + '/'.join(ifilter(None, args)) + '.%s' % (self.format)`. -/
def Three.create_path (t : Three) (args : List (Option String)) : String :=
  t.endpoint ++ String.intercalate "/" (pyFilterTruthy args) ++ "." ++ t.format

/-- `Three.get(*args, **kwargs)`: one GET to `_create_path(*args)` with
`params=kwargs`. -/
def Three.get (t : Three) (args : List (Option String)) (kwargs : Dict) : HttpCall :=
  HttpCall.get (Three.create_path t args) (some kwargs)

/-- `Three.discovery(url=None)`: with a truthy `url`, one bare GET to that
literal URL (no `params` argument); otherwise `self.get('discovery')`. -/
def Three.discovery (t : Three) (url : Option String) : HttpCall :=
  if (url.getD "") = "" then Three.get t [some "discovery"] []
  else HttpCall.get (url.getD "") none

/-- `Three.requests(code=None, **kwargs)`: inject `service_code=code` into
`kwargs` when `code` is truthy, then `self.get('requests', **kwargs)`. -/
def Three.requestsCall (t : Three) (code : Option String) (kwargs : Dict) : HttpCall :=
  let kwargs :=
    match code with
    | some c => if c = "" then kwargs else dinsert kwargs "service_code" c
    | none => kwargs
  Three.get t [some "requests"] kwargs

/-- `Three.request(id, **kwargs)`: `self.get('requests', id, **kwargs)`. -/
def Three.requestCall (t : Three) (id : String) (kwargs : Dict) : HttpCall :=
  Three.get t [some "requests", some id] kwargs

/-- `Three.convert(content)`: JSON-decode the content when the current
format is `"json"`, else return the content unchanged.  The external
`json.loads` decoder is an explicit function argument. -/
def Three.convert {α : Type} (t : Three) (jsonLoads : String → α) (content : String) : α ⊕ String :=
  if t.format = "json" then Sum.inl (jsonLoads content) else Sum.inr content

/-- Split a character list at its first space: the characters before it and
the characters after it (the whole list and `[]` when there is no space). -/
def splitAtSpace : List Char → List Char × List Char
  | [] => ([], [])
  | c :: cs =>
    if c = ' ' then ([], cs)
    else ((splitAtSpace cs).1.cons c, (splitAtSpace cs).2)

/-- Split a name at its first space: everything before the first space,
and the remainder after it (used by the spec-modelled `post`). -/
def splitName (name : String) : String × String :=
  (⟨(splitAtSpace name.data).1⟩, ⟨(splitAtSpace name.data).2⟩)

/-- Modelled from the spec: the `post` method is present in the spec and the
repository's tests but its code is not under `src/` (the shipped
`three/three.py` predates it).  Per the spec's table for
`post(code, name, address, **kwargs)`: one POST to `buildPath(["requests"])`
whose body holds `first_name`/`last_name` from the two-token whitespace
split of `name`, `service_code=code`, `address_string=address`,
`api_key` = the currently resolved apiKey, with the extra keyword
arguments merged in. -/
def Three.postCall (t : Three) (code name address : String) (kwargs : Dict) : HttpCall :=
  let body : Dict :=
    [("first_name", (splitName name).1), ("last_name", (splitName name).2),
     ("service_code", code), ("address_string", address), ("api_key", t.api_key)]
  HttpCall.post (Three.create_path t [some "requests"]) (dupdate body kwargs)

example : (Three.init none "api.city.gov" []).endpoint = "https://api.city.gov/" := by decide
example : (Three.init none "api.city.gov" []).format = "json" := by decide
example : (Three.init (some "OHAI") "" []).api_key = "OHAI" := by decide
example : (Three.init none "httpfoo.com" []).endpoint = "httpfoo.com/" := by decide
example : (Three.init none "api.city.gov//" []).endpoint = "https://api.city.gov//" := by decide
example :
    Three.requestCall (Three.init none "api.city.gov" []) "12345" [] =
      HttpCall.get "https://api.city.gov/requests/12345.json" (some []) := by decide
example :
    Three.postCall (Three.init none "api.city.gov" [("api_key", "my_api_key")])
        "123" "Zach Williams" "85 2nd Street" [] =
      HttpCall.post "https://api.city.gov/requests.json"
        [("first_name", "Zach"), ("last_name", "Williams"), ("service_code", "123"),
         ("address_string", "85 2nd Street"), ("api_key", "my_api_key")] := by decide

/-! ### Dictionary lemmas -/

theorem dget_dinsert_self (d : Dict) (k v : String) : dget (dinsert d k v) k = some v := by
  induction d with
  | nil => simp [dget, dinsert]
  | cons hd tl ih =>
    by_cases h : hd.1 = k <;> simp [dget, dinsert, h, ih]

theorem dget_dinsert_ne (d : Dict) (k v k' : String) (h : k ≠ k') :
    dget (dinsert d k v) k' = dget d k' := by
  induction d with
  | nil => simp [dget, dinsert, h]
  | cons hd tl ih =>
    by_cases hk : hd.1 = k
    · have h2 : ¬ (hd.1 = k') := by rw [hk]; exact h
      simp [dinsert, dget, hk, h, h2]
    · have hstep : dinsert (hd :: tl) k v = hd :: dinsert tl k v := by
        cases hd with
        | mk a b => simp [dinsert, hk]
      rw [hstep]
      cases hd with
      | mk a b =>
        by_cases hk' : a = k' <;> simp [dget, hk', ih]

theorem dupdate_nil (d : Dict) : dupdate d [] = d := rfl

/-! ### Structural lemmas about `configure` -/

theorem configure_keywords (env : Option String) (t : Three) (kwargs : Dict) :
    (Three.configure env t kwargs).keywords = t.keywords := rfl

theorem configure_congr (env : Option String) (t t' : Three) (kwargs : Dict)
    (h : t.keywords = t'.keywords) :
    Three.configure env t kwargs = Three.configure env t' kwargs := by
  simp only [Three.configure, h]

theorem foldl_configure_keywords (env : Option String) (os : List Dict) (t : Three) :
    (os.foldl (Three.configure env) t).keywords = t.keywords := by
  induction os generalizing t with
  | nil => rfl
  | cons o os ih => simpa [List.foldl] using ih (Three.configure env t o)

theorem configure_api_key (env : Option String) (t : Three) (kwargs : Dict) :
    (Three.configure env t kwargs).api_key =
      (if dgetD (dupdate t.keywords kwargs) "api_key" = "" then globalApiKey env
       else dgetD (dupdate t.keywords kwargs) "api_key") := by
  simp only [Three.configure]
  cases h : dget kwargs "endpoint" with
  | none => rfl
  | some e =>
    have hne : dget (dinsert (dupdate t.keywords kwargs) "endpoint"
        (Three.configure_endpoint e)) "api_key" = dget (dupdate t.keywords kwargs) "api_key" :=
      dget_dinsert_ne _ _ _ _ (by decide)
    simp [dgetD, hne]

/-! ### Claim theorems -/

/-- C1: for every construction-time keyword map, construction endpoint and
environment, and every sequence of `configure(overrides)` calls under the
same environment, `reset()` brings the instance back to exactly its state
immediately after construction (in particular the live fields `endpoint`,
`format`, `api_key`, `jurisdiction` and `proxy`), because every `configure`
merges onto a copy of the original `_keywords`, never onto live state. -/
theorem reset_restores_construction_state (env : Option String) (endpoint : String)
    (kwargs : Dict) (os : List Dict) :
    Three.reset env (os.foldl (Three.configure env) (Three.init env endpoint kwargs)) =
      Three.init env endpoint kwargs := by
  have hkw : (os.foldl (Three.configure env) (Three.init env endpoint kwargs)).keywords =
      (Three.init env endpoint kwargs).keywords :=
    foldl_configure_keywords env os _
  show Three.configure env _ [] = Three.init env endpoint kwargs
  rw [configure_congr env _ (Three.init env endpoint kwargs) [] hkw]
  show Three.configure env _ [] = Three.configure env _ []
  exact configure_congr env _ _ [] (configure_keywords env _ [])

/-- C8: `configure(overrides)` leaves the stored base configuration
`_keywords` unchanged, and the result does not depend on the previous live
field values at all: instances agreeing on `_keywords` are configured to
equal states. -/
theorem configure_frame (env : Option String) (t : Three) (kwargs : Dict) :
    (Three.configure env t kwargs).keywords = t.keywords ∧
      ∀ t' : Three, t'.keywords = t.keywords →
        Three.configure env t' kwargs = Three.configure env t kwargs :=
  ⟨rfl, fun t' h => configure_congr env t' t kwargs h⟩

/-- C8 witness: two instances with equal `_keywords` but different live
fields configure to the same state, and `_keywords` survives. -/
theorem configure_frame_witness :
    (Three.configure none (Three.mk [("format", "xml")] "k" "e" "f" "j" "p") [("proxy", "q")]).keywords
        = [("format", "xml")] ∧
      Three.configure none (Three.mk [("format", "xml")] "" "" "" "" "") [("proxy", "q")] =
        Three.configure none (Three.mk [("format", "xml")] "k" "e" "f" "j" "p") [("proxy", "q")] :=
  ⟨(configure_frame none (Three.mk [("format", "xml")] "k" "e" "f" "j" "p") [("proxy", "q")]).1,
    (configure_frame none (Three.mk [("format", "xml")] "k" "e" "f" "j" "p") [("proxy", "q")]).2
      (Three.mk [("format", "xml")] "" "" "" "" "") rfl⟩

/-- C4: the resolved `api_key` equals the merged map's explicit `api_key`
value when that value is non-empty; otherwise the `OPEN311_API_KEY`
environment value when the variable is present; otherwise `""`. -/
theorem api_key_resolution (env : Option String) (t : Three) (kwargs : Dict) :
    (dgetD (dupdate t.keywords kwargs) "api_key" ≠ "" →
      (Three.configure env t kwargs).api_key = dgetD (dupdate t.keywords kwargs) "api_key") ∧
    (dgetD (dupdate t.keywords kwargs) "api_key" = "" →
      (∀ v : String, env = some v → (Three.configure env t kwargs).api_key = v) ∧
      (env = none → (Three.configure env t kwargs).api_key = "")) := by
  constructor
  · intro h
    rw [configure_api_key, if_neg h]
  · intro h
    constructor
    · intro v hv
      rw [configure_api_key, if_pos h, hv]
      rfl
    · intro hv
      rw [configure_api_key, if_pos h, hv]
      rfl

/-- C4 witness: with an explicit non-empty key the environment is ignored;
with no explicit key the environment value wins; with neither, `""`. -/
theorem api_key_resolution_witness :
    (Three.configure (some "OHAI") (Three.mk [("api_key", "mine")] "" "" "" "" "") []).api_key
        = "mine" ∧
      (Three.configure (some "OHAI") (Three.mk [] "" "" "" "" "") []).api_key = "OHAI" ∧
      (Three.configure none (Three.mk [] "" "" "" "" "") []).api_key = "" :=
  ⟨(api_key_resolution (some "OHAI") (Three.mk [("api_key", "mine")] "" "" "" "" "") []).1
      (by decide),
    ((api_key_resolution (some "OHAI") (Three.mk [] "" "" "" "" "") []).2 (by decide)).1
      "OHAI" rfl,
    ((api_key_resolution none (Three.mk [] "" "" "" "" "") []).2 (by decide)).2 rfl⟩

/-! ### Prefix / suffix lemmas -/

theorem listIsPre_append_self (p r : List Char) : listIsPre p (p ++ r) = true := by
  induction p with
  | nil => rfl
  | cons a as ih => simp [listIsPre, ih]

theorem listIsPre_mono (p l r : List Char) (h : listIsPre p l = true) :
    listIsPre p (l ++ r) = true := by
  induction p generalizing l with
  | nil => rfl
  | cons a as ih =>
    cases l with
    | nil => simp [listIsPre] at h
    | cons b bs =>
      simp [listIsPre] at h ⊢
      exact ⟨h.1, ih bs h.2⟩

theorem strStartsWith_append_left (p r : String) : strStartsWith (p ++ r) p = true := by
  simp only [strStartsWith, String.data_append]
  exact listIsPre_append_self _ _

theorem strStartsWith_append_right (s p r : String) (h : strStartsWith s p = true) :
    strStartsWith (s ++ r) p = true := by
  simp only [strStartsWith, String.data_append]
  exact listIsPre_mono _ _ _ h

theorem strEndsWith_append_slash (x : String) : strEndsWith (x ++ "/") "/" = true := by
  have hd : ("/" : String).data = ['/'] := rfl
  simp only [strEndsWith, String.data_append, hd, List.reverse_append]
  simp [listIsPre]

/-- C3 counterexample: `"httpfoo.com"` carries no scheme, yet the resolved
endpoint is `"httpfoo.com/"`, which starts with neither `http://` nor
`https://` (the code only tests `startswith('http')`); and
`"api.city.gov//"` resolves to `"https://api.city.gov//"`, which ends in
two slashes, not exactly one. -/
theorem endpoint_normalization_counterexample :
    (Three.init none "httpfoo.com" []).endpoint = "httpfoo.com/" ∧
    strStartsWith (Three.init none "httpfoo.com" []).endpoint "http://" = false ∧
    strStartsWith (Three.init none "httpfoo.com" []).endpoint "https://" = false ∧
    (Three.init none "api.city.gov//" []).endpoint = "https://api.city.gov//" ∧
    strEndsWith (Three.init none "api.city.gov//" []).endpoint "//" = true := by
  refine ⟨by decide, by decide, by decide, by decide, by decide⟩

/-- C3 (amended): the resolved endpoint always ends with at least one `/`
(one is appended only when the input does not already end with `/`, so
extra trailing slashes survive), and `https://` is prepended exactly when
the input does not start with the literal string `"http"` (so an input
starting with `"http"` keeps its prefix even when that prefix is not a
scheme); this normalization is applied to the endpoint passed at
construction and to the `endpoint` override of `configure`. -/
theorem endpoint_normalization_amended (env : Option String) (t : Three) (kwargs : Dict)
    (e : String) :
    strEndsWith (Three.configure_endpoint e) "/" = true ∧
    (strStartsWith e "http" = false →
      strStartsWith (Three.configure_endpoint e) "https://" = true) ∧
    (strStartsWith e "http" = true →
      strStartsWith (Three.configure_endpoint e) "http" = true) ∧
    (e ≠ "" → (Three.init env e kwargs).endpoint = Three.configure_endpoint e) ∧
    (Three.configure env t [("endpoint", e)]).endpoint = Three.configure_endpoint e := by
  refine ⟨?_, ?_, ?_, ?_, ?_⟩
  · by_cases h : strEndsWith (if strStartsWith e "http" then e else "https://" ++ e) "/" = true
    · simp [Three.configure_endpoint, h]
    · simp only [Three.configure_endpoint, h, if_false, if_neg h]
      exact strEndsWith_append_slash _
  · intro h
    by_cases h2 : strEndsWith ("https://" ++ e) "/" = true
    · have heq : Three.configure_endpoint e = "https://" ++ e := by
        simp [Three.configure_endpoint, h, h2]
      rw [heq]
      exact strStartsWith_append_left "https://" e
    · have heq : Three.configure_endpoint e = ("https://" ++ e) ++ "/" := by
        simp [Three.configure_endpoint, h, h2]
      rw [heq]
      exact strStartsWith_append_right _ "https://" "/" (strStartsWith_append_left "https://" e)
  · intro h
    by_cases h2 : strEndsWith e "/" = true
    · have heq : Three.configure_endpoint e = e := by
        simp [Three.configure_endpoint, h, h2]
      rw [heq]
      exact h
    · have heq : Three.configure_endpoint e = e ++ "/" := by
        simp [Three.configure_endpoint, h, h2]
      rw [heq]
      exact strStartsWith_append_right _ "http" "/" h
  · intro he
    simp only [Three.init, if_neg he, Three.configure, dupdate_nil]
    simp [dget, dgetD, dget_dinsert_self]
  · simp [Three.configure, dget, dgetD, dget_dinsert_self]

/-- C3 (amended) witness: a schemeless, slashless endpoint gains both, and
construction resolves it through the same normalization. -/
theorem endpoint_normalization_amended_witness :
    strEndsWith (Three.configure_endpoint "city.gov") "/" = true ∧
    strStartsWith (Three.configure_endpoint "city.gov") "https://" = true ∧
    (Three.init none "city.gov" []).endpoint = Three.configure_endpoint "city.gov" :=
  ⟨(endpoint_normalization_amended none (Three.mk [] "" "" "" "" "") [] "city.gov").1,
    (endpoint_normalization_amended none (Three.mk [] "" "" "" "" "") [] "city.gov").2.1
      (by decide),
    (endpoint_normalization_amended none (Three.mk [] "" "" "" "" "") [] "city.gov").2.2.2.1
      (by decide)⟩

/-- `ifilter(None, args)` keeps exactly the non-null, non-empty segments. -/
theorem pyFilterTruthy_eq (args : List (Option String)) :
    pyFilterTruthy args = (args.filterMap id).filter (fun s => s ≠ "") := by
  induction args with
  | nil => rfl
  | cons a rest ih =>
    cases a with
    | none => simpa [pyFilterTruthy] using ih
    | some s =>
      by_cases h : s = "" <;> simp [pyFilterTruthy, h, ih]

/-- C6: `_create_path` is the current endpoint, then the non-null non-empty
segments joined with `/`, then `.` and the current format; in particular
`request("12345")` against endpoint `api.city.gov` issues a GET to
`https://api.city.gov/requests/12345.json` with an empty parameter map. -/
theorem create_path_spec :
    (∀ (t : Three) (args : List (Option String)),
      Three.create_path t args =
        t.endpoint ++ String.intercalate "/" ((args.filterMap id).filter (fun s => s ≠ ""))
          ++ "." ++ t.format) ∧
    Three.requestCall (Three.init none "api.city.gov" []) "12345" [] =
      HttpCall.get "https://api.city.gov/requests/12345.json" (some []) := by
  constructor
  · intro t args
    unfold Three.create_path
    rw [pyFilterTruthy_eq]
  · decide

/-- C5: `discovery(url)` with a non-empty `url` issues one GET to that
literal URL with no parameters argument at all, while `discovery()` issues
a GET to `create_path(["discovery"])`, i.e. `{endpoint}discovery.{format}`,
with an empty parameter map. -/
theorem discovery_spec (t : Three) (url : String) :
    (url ≠ "" → Three.discovery t (some url) = HttpCall.get url none) ∧
    Three.discovery t none = HttpCall.get (Three.create_path t [some "discovery"]) (some []) ∧
    Three.create_path t [some "discovery"] = t.endpoint ++ "discovery" ++ "." ++ t.format := by
  refine ⟨?_, rfl, ?_⟩
  · intro h
    simp [Three.discovery, h]
  · unfold Three.create_path
    rw [show String.intercalate "/" (pyFilterTruthy [some "discovery"]) = "discovery" by decide]

/-- C5 witness: the test's literal-URL discovery call. -/
theorem discovery_spec_witness :
    Three.discovery (Three.init none "api.city.gov" []) (some "http://testing.gov/discovery.json")
      = HttpCall.get "http://testing.gov/discovery.json" none :=
  (discovery_spec (Three.init none "api.city.gov" [])
    "http://testing.gov/discovery.json").1 (by decide)

/-- C7: `requests(code, **kwargs)` sends the keyword map with
`service_code=code` added exactly when `code` is truthy (a non-empty,
non-`None` string); `requests()` with no code sends the empty parameter
map, always to `create_path(["requests"])`. -/
theorem requests_params_spec (t : Three) (c : String) (kwargs : Dict) :
    (c ≠ "" →
      Three.requestsCall t (some c) kwargs =
        HttpCall.get (Three.create_path t [some "requests"])
          (some (dinsert kwargs "service_code" c)) ∧
      dget (dinsert kwargs "service_code" c) "service_code" = some c ∧
      ∀ k : String, k ≠ "service_code" →
        dget (dinsert kwargs "service_code" c) k = dget kwargs k) ∧
    Three.requestsCall t (some "") kwargs =
      HttpCall.get (Three.create_path t [some "requests"]) (some kwargs) ∧
    Three.requestsCall t none kwargs =
      HttpCall.get (Three.create_path t [some "requests"]) (some kwargs) ∧
    Three.requestsCall t none [] =
      HttpCall.get (Three.create_path t [some "requests"]) (some []) := by
  refine ⟨fun h => ⟨?_, dget_dinsert_self _ _ _,
      fun k hk => dget_dinsert_ne _ _ _ _ (Ne.symm hk)⟩, ?_, rfl, rfl⟩
  · simp [Three.requestsCall, Three.get, h]
  · simp [Three.requestsCall, Three.get]

/-- C7 witness: the test's `requests('123')` call. -/
theorem requests_params_spec_witness :
    Three.requestsCall (Three.init none "api.city.gov" []) (some "123") [] =
      HttpCall.get (Three.create_path (Three.init none "api.city.gov" []) [some "requests"])
        (some [("service_code", "123")]) :=
  ((requests_params_spec (Three.init none "api.city.gov" []) "123" []).1 (by decide)).1

/-- C10: when `code` is truthy and the keyword map already binds
`service_code`, the positional `code` silently overwrites that binding in
the outgoing parameter map. -/
theorem requests_service_code_overwrite (t : Three) (c : String) (kwargs : Dict) (v : String)
    (hc : c ≠ "") (_hv : dget kwargs "service_code" = some v) :
    Three.requestsCall t (some c) kwargs =
      HttpCall.get (Three.create_path t [some "requests"])
        (some (dinsert kwargs "service_code" c)) ∧
    dget (dinsert kwargs "service_code" c) "service_code" = some c :=
  ⟨by simp [Three.requestsCall, Three.get, hc], dget_dinsert_self _ _ _⟩

/-- C10 witness: a caller-supplied `service_code="111"` is replaced by the
positional code `"999"`. -/
theorem requests_service_code_overwrite_witness :
    Three.requestsCall (Three.init none "api.city.gov" []) (some "999")
        [("service_code", "111")] =
      HttpCall.get (Three.create_path (Three.init none "api.city.gov" []) [some "requests"])
        (some [("service_code", "999")]) ∧
    dget [("service_code", "999")] "service_code" = some "999" :=
  requests_service_code_overwrite (Three.init none "api.city.gov" []) "999"
    [("service_code", "111")] "111" (by decide) rfl

/-- C9: `convert(content)` returns the JSON-decoded structure when the
current format is `"json"`, and the content itself unchanged for every
other format value. -/
theorem convert_spec {α : Type} (t : Three) (jsonLoads : String → α) (content : String) :
    (t.format = "json" → Three.convert t jsonLoads content = Sum.inl (jsonLoads content)) ∧
    (t.format ≠ "json" → Three.convert t jsonLoads content = Sum.inr content) := by
  constructor <;> intro h <;> simp [Three.convert, h]

/-- C9 witness: a json-format instance decodes, an xml-format instance is
the identity on the content. -/
theorem convert_spec_witness :
    Three.convert (Three.init none "" []) (fun s => s.length) "[1]" = Sum.inl 3 ∧
    Three.convert (Three.init none "" [("format", "xml")]) (fun s => s.length) "[1]" =
      Sum.inr "[1]" :=
  ⟨(convert_spec (Three.init none "" []) (fun s => s.length) "[1]").1 (by decide),
    (convert_spec (Three.init none "" [("format", "xml")]) (fun s => s.length) "[1]").2
      (by decide)⟩

/-! ### Disjoint-update lemmas, for the `post` body -/

theorem dinsert_absent (d : Dict) (k v : String) (h : dget d k = none) :
    dinsert d k v = d ++ [(k, v)] := by
  induction d with
  | nil => rfl
  | cons hd tl ih =>
    cases hd with
    | mk a b =>
      by_cases hak : a = k
      · rw [dget, if_pos hak] at h
        exact absurd h (by simp)
      · rw [dget, if_neg hak] at h
        simp [dinsert, hak, ih h]

theorem dget_append_left_none (d e : Dict) (k : String) (h : dget d k = none) :
    dget (d ++ e) k = dget e k := by
  induction d with
  | nil => rfl
  | cons hd tl ih =>
    cases hd with
    | mk a b =>
      by_cases hak : a = k
      · rw [dget, if_pos hak] at h
        exact absurd h (by simp)
      · rw [dget, if_neg hak] at h
        simpa [dget, hak] using ih h

theorem dget_none_of_not_mem_keys (d : Dict) (k : String) (h : k ∉ d.map Prod.fst) :
    dget d k = none := by
  induction d with
  | nil => rfl
  | cons hd tl ih =>
    cases hd with
    | mk a b =>
      simp only [List.map, List.mem_cons, not_or] at h
      rw [dget, if_neg (fun e => h.1 e.symm)]
      exact ih h.2

theorem dupdate_disjoint (e : Dict) (hnd : (e.map Prod.fst).Nodup) :
    ∀ d : Dict, (∀ kv ∈ e, dget d kv.1 = none) → dupdate d e = d ++ e := by
  induction e with
  | nil => intro d _; simp [dupdate]
  | cons kv rest ih =>
    intro d hd
    have hnd' : (rest.map Prod.fst).Nodup := (List.nodup_cons.mp hnd).2
    have hkv : kv.1 ∉ rest.map Prod.fst := (List.nodup_cons.mp hnd).1
    have h1 : dget d kv.1 = none := hd kv (by simp)
    have hstep : dupdate d (kv :: rest) = dupdate (dinsert d kv.1 kv.2) rest := rfl
    rw [hstep, dinsert_absent d kv.1 kv.2 h1]
    have hd' : ∀ kv' ∈ rest, dget (d ++ [(kv.1, kv.2)]) kv'.1 = none := by
      intro kv' hmem
      rw [dget_append_left_none d _ _ (hd kv' (by simp [hmem]))]
      have hne : kv.1 ≠ kv'.1 := by
        intro hcontra
        exact hkv (hcontra ▸ List.mem_map_of_mem Prod.fst hmem)
      rw [dget, if_neg hne]
      rfl
    rw [ih hnd' (d ++ [(kv.1, kv.2)]) hd']
    simp

/-- C2 (spec-modelled, the `post` method is absent from `src/`): with extra
keyword arguments whose keys avoid the five fixed body keys,
`post(code, name, address, **kwargs)` issues exactly one POST to
`create_path(["requests"])` whose body is precisely the five fixed pairs —
`first_name` = the part of `name` before its first space, `last_name` = the
remainder, `service_code` = `code`, `address_string` = `address`,
`api_key` = the currently resolved apiKey — followed by the extra keyword
pairs, and nothing else. -/
theorem post_body_spec (t : Three) (code name address : String) (kwargs : Dict)
    (hdisj : ∀ kv ∈ kwargs,
      kv.1 ∉ ["first_name", "last_name", "service_code", "address_string", "api_key"])
    (hnd : (kwargs.map Prod.fst).Nodup) :
    Three.postCall t code name address kwargs =
      HttpCall.post (Three.create_path t [some "requests"])
        ([("first_name", (splitName name).1), ("last_name", (splitName name).2),
          ("service_code", code), ("address_string", address), ("api_key", t.api_key)]
          ++ kwargs) ∧
    dget ([("first_name", (splitName name).1), ("last_name", (splitName name).2),
        ("service_code", code), ("address_string", address), ("api_key", t.api_key)]
        ++ kwargs) "first_name" = some (splitName name).1 ∧
    dget ([("first_name", (splitName name).1), ("last_name", (splitName name).2),
        ("service_code", code), ("address_string", address), ("api_key", t.api_key)]
        ++ kwargs) "last_name" = some (splitName name).2 ∧
    dget ([("first_name", (splitName name).1), ("last_name", (splitName name).2),
        ("service_code", code), ("address_string", address), ("api_key", t.api_key)]
        ++ kwargs) "service_code" = some code ∧
    dget ([("first_name", (splitName name).1), ("last_name", (splitName name).2),
        ("service_code", code), ("address_string", address), ("api_key", t.api_key)]
        ++ kwargs) "address_string" = some address ∧
    dget ([("first_name", (splitName name).1), ("last_name", (splitName name).2),
        ("service_code", code), ("address_string", address), ("api_key", t.api_key)]
        ++ kwargs) "api_key" = some t.api_key := by
  refine ⟨?_, rfl, rfl, rfl, rfl, rfl⟩
  simp only [Three.postCall]
  rw [dupdate_disjoint kwargs hnd _ ?_]
  intro kv hmem
  apply dget_none_of_not_mem_keys
  intro hk
  exact hdisj kv hmem (by simpa using hk)

/-- C2 witness: the test's post against `api.city.gov` with an extra
`phone` keyword. -/
theorem post_body_spec_witness :
    Three.postCall (Three.init none "api.city.gov" [("api_key", "my_api_key")])
        "123" "Zach Williams" "85 2nd Street" [("phone", "555-5555")] =
      HttpCall.post "https://api.city.gov/requests.json"
        [("first_name", "Zach"), ("last_name", "Williams"), ("service_code", "123"),
         ("address_string", "85 2nd Street"), ("api_key", "my_api_key"),
         ("phone", "555-5555")] :=
  (post_body_spec (Three.init none "api.city.gov" [("api_key", "my_api_key")])
    "123" "Zach Williams" "85 2nd Street" [("phone", "555-5555")]
    (by decide) (by decide)).1

end ThreeSpec
